import Mathlib

/-!
Verification of the KiCad GAL rendering core: the stroke-font engine
(`common/gal/stroke_font.cpp`), the domain painter dispatch
(`pcbnew/pcb_painter.cpp`) and the retained-group cache of the OpenGL
backend (`include/gal/opengl/opengl_gal.h`).

The embedding is shallow: C++ `double` values are modelled as exact
rationals (`ℚ`), strings are lists of Unicode code points (`List Nat`),
the mutable GAL context becomes explicit state passing, and the visual
side effects of the GAL (DrawLine / DrawPolyline) become a list of
emitted primitives whose coordinates carry the current transform.
-/

namespace KIGFX

/-- Two-dimensional vector with rational coordinates, embedding
`VECTOR2D` (doubles are modelled as exact rationals). -/
@[ext]
structure Vector2D where
  x : ℚ
  y : ℚ
deriving DecidableEq

/-- Interline pitch constant of `STROKE_FONT` (named
`INTERLINE_PITCH_RATIO = 1.5` in stroke_font.cpp). -/
def INTERLINE_PITCH : ℚ := 3 / 2

/-- Constant `STROKE_FONT::OVERBAR_POSITION_FACTOR = 1.22`. -/
def OVERBAR_POSITION_FACTOR : ℚ := 61 / 50

/-- Constant `STROKE_FONT::BOLD_FACTOR = 1.3`. -/
def BOLD_FACTOR : ℚ := 13 / 10

/-- Constant `STROKE_FONT::STROKE_FONT_SCALE = 1.0 / 21.0`. -/
def STROKE_FONT_SCALE : ℚ := 1 / 21

/-- Constant `STROKE_FONT::ITALIC_TILT = 1.0 / 8`. -/
def ITALIC_TILT : ℚ := 1 / 8

/-- Constant `FONT_OFFSET = -10` of `STROKE_FONT::LoadNewStrokeFont`. -/
def FONT_OFFSET : ℚ := -10

/-- One glyph: a list of pen-down strokes, each an ordered point list,
embedding `GLYPH = std::deque<std::deque<VECTOR2D>>`. -/
abbrev GLYPH := List (List Vector2D)

/-- Axis-aligned bounding box embedding `BOX2D`.  Modelled from the spec:
the `BOX2` implementation (include/math/box2.h) is not among the provided
sources; per the spec a glyph's precomputed bounding box gives "the
glyph's horizontal advance width (`start.x`, `end.x`) and vertical
extent", so `Compute` places the origin at the componentwise minimum and
the end at the componentwise maximum of the point set; `GetY` reads the
origin's y, `GetEnd` reads the maximum corner. -/
structure BOX2D where
  pos : Vector2D
  theEnd : Vector2D
deriving DecidableEq

/-- Default bounding box, used where C++ would index out of bounds. -/
def defaultBox : BOX2D := ⟨⟨0, 0⟩, ⟨0, 0⟩⟩

/-- Compute of `BOX2D` over a point set (see `BOX2D` doc comment):
origin = componentwise minimum, end = componentwise maximum. -/
def boxCompute : List Vector2D → BOX2D
  | [] => ⟨⟨0, 0⟩, ⟨0, 0⟩⟩
  | p :: ps =>
    ⟨⟨ps.foldl (fun a q => min a q.x) p.x, ps.foldl (fun a q => min a q.y) p.y⟩,
     ⟨ps.foldl (fun a q => max a q.x) p.x, ps.foldl (fun a q => max a q.y) p.y⟩⟩

/-- Embedding of `STROKE_FONT::computeBoundingBox`: the bounding points
are `(boundingX.x, 0)`, `(boundingX.y, 0)` and, for every decoded glyph
point, `(boundingX.x, point.y)`. -/
def computeBoundingBox (aGlyph : GLYPH) (aGlyphBoundingX : Vector2D) : BOX2D :=
  boxCompute (⟨aGlyphBoundingX.x, 0⟩ :: ⟨aGlyphBoundingX.y, 0⟩ ::
    (aGlyph.map (fun stroke => stroke.map (fun p => (⟨aGlyphBoundingX.x, p.y⟩ : Vector2D)))).flatten)

/-- Mutable loop state of the glyph-decoding loop of
`STROKE_FONT::LoadNewStrokeFont`. -/
structure DecodeSt where
  glyph : GLYPH
  pointList : List Vector2D
  glyphStartX : ℚ
  glyphEndX : ℚ
  glyphBoundingX : Vector2D
deriving DecidableEq

/-- Initial decode state (`glyphStartX = glyphEndX = 0`, empty lists). -/
def initDecodeSt : DecodeSt := ⟨[], [], 0, 0, ⟨0, 0⟩⟩

/-- One two-character step of the decoding loop of `LoadNewStrokeFont`
at string index `i`: the first pair (`i < 2`) records the advance-width
bounds, the pair `' '`,`'R'` raises the pen, any other pair decodes a
point (`'R' = 82`, `' ' = 32`). -/
def decodeStep (i : Nat) (st : DecodeSt) (c0 c1 : Nat) : DecodeSt :=
  if i < 2 then
    let sX := ((c0 : ℚ) - 82) * STROKE_FONT_SCALE
    let eX := ((c1 : ℚ) - 82) * STROKE_FONT_SCALE
    { st with glyphStartX := sX, glyphEndX := eX, glyphBoundingX := ⟨0, eX - sX⟩ }
  else if c0 = 32 ∧ c1 = 82 then
    { st with glyph := if st.pointList ≠ [] then st.glyph ++ [st.pointList] else st.glyph,
              pointList := [] }
  else
    { st with pointList := st.pointList ++
        [⟨((c0 : ℚ) - 82) * STROKE_FONT_SCALE - st.glyphStartX,
          ((c1 : ℚ) - 82 + FONT_OFFSET) * STROKE_FONT_SCALE⟩] }

/-- The while-loop of `LoadNewStrokeFont` over one glyph entry string,
two characters at a time (a trailing lone character is paired with the
NUL terminator, as the C code reads `aNewStrokeFont[j][i + 1]`). -/
def decodeLoop (i : Nat) (st : DecodeSt) : List Nat → DecodeSt
  | [] => st
  | [c0] => decodeStep i st c0 0
  | c0 :: c1 :: rest => decodeLoop (i + 2) (decodeStep i st c0 c1) rest

/-- Decoding of one glyph entry: run the loop from index 0, then flush
the pending point list (`if (pointList.size() > 0) glyph.push_back`). -/
def loadGlyph (entry : List Nat) : GLYPH × Vector2D :=
  let st := decodeLoop 0 initDecodeSt entry
  ((if st.pointList ≠ [] then st.glyph ++ [st.pointList] else st.glyph), st.glyphBoundingX)

/-- Embedding of `STROKE_FONT::LoadNewStrokeFont`: fills `m_glyphs` and
`m_glyphBoundingBoxes` (one entry per table entry, in order) and returns
`true`. -/
def LoadNewStrokeFont (table : List (List Nat)) : Bool × List GLYPH × List BOX2D :=
  (true,
   table.map (fun e => (loadGlyph e).1),
   table.map (fun e => computeBoundingBox (loadGlyph e).1 (loadGlyph e).2))

/-- The glyph database of a `STROKE_FONT` instance: `m_glyphs` and
`m_glyphBoundingBoxes`. -/
structure FontData where
  glyphs : List GLYPH
  glyphBoundingBoxes : List BOX2D
deriving DecidableEq

/-- Font data as produced by `LoadNewStrokeFont`. -/
def fontOfTable (table : List (List Nat)) : FontData :=
  ⟨(LoadNewStrokeFont table).2.1, (LoadNewStrokeFont table).2.2⟩

/-- Horizontal text justification (`GR_TEXT_HJUSTIFY_T`). -/
inductive HJustify where
  | left
  | center
  | right
deriving DecidableEq

/-- Vertical text justification (`GR_TEXT_VJUSTIFY_T`). -/
inductive VJustify where
  | top
  | center
  | bottom
deriving DecidableEq

/-- The GAL attribute state read or written by the stroke font:
glyph size, line width, stroke flag and the text style flags. -/
structure GalSettings where
  glyphSize : Vector2D
  lineWidth : ℚ
  isStroke : Bool
  fontBold : Bool
  fontItalic : Bool
  textMirrored : Bool
  hJustify : HJustify
  vJustify : VJustify
deriving DecidableEq

/-- Affine world transform of the GAL: point `p` maps to
`(axx·p.x + axy·p.y + tx, ayx·p.x + ayy·p.y + ty)`. -/
@[ext]
structure Transform where
  axx : ℚ
  axy : ℚ
  ayx : ℚ
  ayy : ℚ
  tx : ℚ
  ty : ℚ
deriving DecidableEq

/-- Apply a transform to a point. -/
def applyT (T : Transform) (p : Vector2D) : Vector2D :=
  ⟨T.axx * p.x + T.axy * p.y + T.tx, T.ayx * p.x + T.ayy * p.y + T.ty⟩

/-- The identity transform. -/
def idTransform : Transform := ⟨1, 0, 0, 1, 0, 0⟩

/-- A pure translation transform. -/
def translateT (x y : ℚ) : Transform := ⟨1, 0, 0, 1, x, y⟩

/-- The GAL context: current transform, attribute settings, and the
save/restore stack (`GAL::Save` snapshots both). -/
structure GalState where
  xform : Transform
  settings : GalSettings
  stack : List (Transform × GalSettings)
deriving DecidableEq

/-- Embedding of `GAL::Translate`: composes a translation onto the
current transform. -/
def galTranslate (s : GalState) (v : Vector2D) : GalState :=
  { s with xform := { s.xform with tx := (applyT s.xform v).x, ty := (applyT s.xform v).y } }

/-- Embedding of `GAL::Rotate` for an angle with cosine `c` and sine
`si`: composes the rotation matrix `[[c, -si], [si, c]]` onto the current
transform (the shallow embedding carries the angle by its exact
cosine/sine pair, which is `(1, 0)` for the angle 0 used by the claims). -/
def galRotate (s : GalState) (c si : ℚ) : GalState :=
  { s with xform := { s.xform with
      axx := s.xform.axx * c + s.xform.axy * si,
      axy := -(s.xform.axx * si) + s.xform.axy * c,
      ayx := s.xform.ayx * c + s.xform.ayy * si,
      ayy := -(s.xform.ayx * si) + s.xform.ayy * c } }

/-- Embedding of `GAL::Save`. -/
def galSave (s : GalState) : GalState :=
  { s with stack := (s.xform, s.settings) :: s.stack }

/-- Embedding of `GAL::Restore` (no-op on an empty stack; all uses in
the embedded code are balanced). -/
def galRestore (s : GalState) : GalState :=
  match s.stack with
  | [] => s
  | (x, set) :: rest => ⟨x, set, rest⟩

/-- A visual primitive emitted by the GAL, with the current transform
already applied to its points: `DrawLine` or `DrawPolyline`. -/
inductive Prim where
  | line (p q : Vector2D)
  | polyline (pts : List Vector2D)
deriving DecidableEq

/-- Number of `DrawLine` primitives in an emission list (the stroke font
draws overbars with `DrawLine` and glyph strokes with `DrawPolyline`). -/
def countLinePrims (ps : List Prim) : Nat :=
  (ps.filter fun p => match p with | .line _ _ => true | .polyline _ => false).length

/-- Glyph index resolution shared by `drawSingleLineText` and
`ComputeStringBoundaryLimits`: `int dd = *chIt - ' '` and
`if (dd >= size || dd < 0) dd = '?' - ' '` (with `'?' - ' ' = 31`). -/
def glyphIndexOf (n : Nat) (c : Nat) : Nat :=
  let dd : Int := (c : Int) - 32
  if dd ≥ (n : Int) ∨ dd < 0 then 31 else dd.toNat

/-- Embedding of the static `STROKE_FONT::ComputeOverbarVerticalPosition`:
`aGlyphHeight * OVERBAR_POSITION_FACTOR + aGlyphThickness`. -/
def ComputeOverbarVerticalPosition (aGlyphHeight aGlyphThickness : ℚ) : ℚ :=
  aGlyphHeight * OVERBAR_POSITION_FACTOR + aGlyphThickness

/-- Embedding of the instance method `computeOverbarVerticalPosition`,
which reads the GAL's glyph height and line width. -/
def computeOverbarVerticalPosition (g : GalSettings) : ℚ :=
  ComputeOverbarVerticalPosition g.glyphSize.y g.lineWidth

/-- One character step of the accumulation loop of
`ComputeStringBoundaryLimits`: adds the glyph's `GetEnd().x` to the
running width and updates the y extrema when the corresponding output
pointer was passed. -/
def boundaryStep (boxes : List BOX2D) (wantTop wantBottom : Bool)
    (rx ymx ymn : ℚ) (c : Nat) : ℚ × ℚ × ℚ :=
  let dd := glyphIndexOf boxes.length c
  let box := boxes.getD dd defaultBox
  (rx + box.theEnd.x,
   if wantTop then max (max ymx box.pos.y) box.theEnd.y else ymx,
   if wantBottom then min (min ymn box.pos.y) box.theEnd.y else ymn)

/-- The character loop of `ComputeStringBoundaryLimits`: a `~` consumes
the next character (which is then processed as a glyph, or the loop
breaks at the end of the string). -/
def boundaryLoop (boxes : List BOX2D) (wantTop wantBottom : Bool)
    (rx ymx ymn : ℚ) : List Nat → ℚ × ℚ × ℚ
  | [] => (rx, ymx, ymn)
  | c :: rest =>
    if c = 126 then
      match rest with
      | [] => (rx, ymx, ymn)
      | c2 :: rest2 =>
        let a := boundaryStep boxes wantTop wantBottom rx ymx ymn c2
        boundaryLoop boxes wantTop wantBottom a.1 a.2.1 a.2.2 rest2
    else
      let a := boundaryStep boxes wantTop wantBottom rx ymx ymn c
      boundaryLoop boxes wantTop wantBottom a.1 a.2.1 a.2.2 rest

/-- Embedding of `STROKE_FONT::ComputeStringBoundaryLimits`.  The two
optional output pointers `aTopLimit`/`aBottomLimit` are modelled by two
Booleans saying whether they were passed and two `Option` results.
`result.y` is the GAL's glyph height and the italic correction uses the
GAL's italic flag, while the width is scaled by the `aGlyphSize`
argument and offset by `aGlyphThickness`. -/
def ComputeStringBoundaryLimits (F : FontData) (g : GalSettings) (aText : List Nat)
    (aGlyphSize : Vector2D) (aGlyphThickness : ℚ) (wantTop wantBottom : Bool) :
    Vector2D × Option ℚ × Option ℚ :=
  let r := boundaryLoop F.glyphBoundingBoxes wantTop wantBottom 0 0 0 aText
  let rx := r.1 * aGlyphSize.x + aGlyphThickness
  let rx := if g.fontItalic then rx + g.glyphSize.y * ITALIC_TILT else rx
  (⟨rx, g.glyphSize.y⟩,
   if wantTop then some (r.2.1 * aGlyphSize.y) else none,
   if wantBottom then some (r.2.2 * aGlyphSize.y) else none)

/-- Embedding of `STROKE_FONT::computeTextLineSize`, which calls
`ComputeStringBoundaryLimits` with the GAL's glyph size and line width
and null limit pointers. -/
def computeTextLineSize (F : FontData) (g : GalSettings) (aText : List Nat) : Vector2D :=
  (ComputeStringBoundaryLimits F g aText g.glyphSize g.lineWidth false false).1

/-- Drawing of one glyph inside the character loop of
`drawSingleLineText`: the optional overbar `DrawLine` (its start nudged
by the italic compensation `comp` when the previous character had no
overbar), then one `DrawPolyline` per stroke with points scaled by the
glyph size, shifted by `xo`, sheared when italic, and carried through
the current transform `T`.  Returns the primitives, the updated
`last_had_overbar` flag and the updated `xOffset`. -/
def glyphStep (F : FontData) (T : Transform) (g : GalSettings) (gsX comp : ℚ)
    (ob lh : Bool) (xo : ℚ) (dd : Nat) : List Prim × Bool × ℚ :=
  let glyph := F.glyphs.getD dd []
  let bbox := F.glyphBoundingBoxes.getD dd defaultBox
  let oby := -(computeOverbarVerticalPosition g)
  let obPrims : List Prim :=
    if ob then
      [Prim.line (applyT T ⟨if lh then xo else xo + comp, oby⟩)
                 (applyT T ⟨xo + gsX * bbox.theEnd.x, oby⟩)]
    else []
  let strokes : List Prim := glyph.map (fun stroke => Prim.polyline (stroke.map (fun p =>
    let pp : Vector2D := ⟨p.x * gsX + xo, p.y * g.glyphSize.y⟩
    let pp : Vector2D :=
      if g.fontItalic then
        if g.textMirrored then ⟨pp.x + pp.y * ITALIC_TILT, pp.y⟩
        else ⟨pp.x - pp.y * ITALIC_TILT, pp.y⟩
      else pp
    applyT T pp)))
  (obPrims ++ strokes, ob, xo + gsX * bbox.theEnd.x)

/-- The character loop of `drawSingleLineText`: a single `~` toggles the
overbar and its following character is processed as a glyph in the same
iteration; a doubled `~~` does not toggle and the second `~` is
processed as a glyph; a `~` at the end of the string breaks the loop.
Returns the emitted primitives and the final `xOffset`. -/
def drawLoop (F : FontData) (T : Transform) (g : GalSettings) (gsX comp : ℚ)
    (ob lh : Bool) (xo : ℚ) : List Nat → List Prim × ℚ
  | [] => ([], xo)
  | c :: rest =>
    if c = 126 then
      match rest with
      | [] => ([], xo)
      | c2 :: rest2 =>
        let ob2 := if c2 ≠ 126 then !ob else ob
        let st := glyphStep F T g gsX comp ob2 lh xo (glyphIndexOf F.glyphBoundingBoxes.length c2)
        let r := drawLoop F T g gsX comp ob2 st.2.1 st.2.2 rest2
        (st.1 ++ r.1, r.2)
    else
      let st := glyphStep F T g gsX comp ob lh xo (glyphIndexOf F.glyphBoundingBoxes.length c)
      let r := drawLoop F T g gsX comp ob st.2.1 st.2.2 rest
      (st.1 ++ r.1, r.2)

/-- Embedding of `STROKE_FONT::drawSingleLineText`: computes the text
size and the half-thickness shift, applies the horizontal justification
(left/right swapped when mirrored), initializes `xOffset` and the glyph
x scale (negated when mirrored), runs the character loop and restores
the context saved after the half-thickness translation. -/
def drawSingleLineText (F : FontData) (s : GalState) (aText : List Nat) :
    GalState × List Prim :=
  let glyphSize := s.settings.glyphSize
  let comp0 := computeOverbarVerticalPosition s.settings * ITALIC_TILT
  let comp := if s.settings.textMirrored then -comp0 else comp0
  let textSize := computeTextLineSize F s.settings aText
  let half := s.settings.lineWidth / 2
  let s1 := galTranslate s ⟨half, 0⟩
  let s2 := galSave s1
  let s3 :=
    match s.settings.hJustify with
    | .center => galTranslate s2 ⟨-textSize.x / 2, 0⟩
    | .right => if ¬s.settings.textMirrored then galTranslate s2 ⟨-textSize.x, 0⟩ else s2
    | .left => if s.settings.textMirrored then galTranslate s2 ⟨-textSize.x, 0⟩ else s2
  let xo : ℚ := if s.settings.textMirrored then textSize.x - s.settings.lineWidth else 0
  let gsX : ℚ := if s.settings.textMirrored then -glyphSize.x else glyphSize.x
  let r := drawLoop F s3.xform s3.settings gsX comp false false xo aText
  (galRestore s3, r.1)

/-- Static `STROKE_FONT::GetInterline`:
`aGlyphHeight * INTERLINE_PITCH_RATIO + aGlyphThickness`. -/
def GetInterline (aGlyphHeight aGlyphThickness : ℚ) : ℚ :=
  aGlyphHeight * INTERLINE_PITCH + aGlyphThickness

/-- Rounding of a double to int.  Modelled from the spec: `KiROUND`
(common include, not among the provided sources) rounds half away from
zero, matching "per-line height ... rounded to int by getInterline". -/
def kiROUND (x : ℚ) : Int :=
  if x < 0 then -(Int.floor (-x + 1 / 2)) else Int.floor (x + 1 / 2)

/-- Instance method `STROKE_FONT::getInterline`: `KiROUND` of
`GetInterline` at the GAL's glyph height and line width. -/
def getInterline (g : GalSettings) : Int :=
  kiROUND (GetInterline g.glyphSize.y g.lineWidth)

/-- Splitting of a text on `'\n'` (code 10).  Modelled from the spec for
`linesCount` (declared in stroke_font.h, not among the provided sources):
"splits on line-break characters"; the splitting itself reproduces the
`find`/`substr` loop of `STROKE_FONT::Draw`. -/
def splitLines : List Nat → List (List Nat)
  | [] => [[]]
  | c :: rest =>
    if c = 10 then [] :: splitLines rest
    else
      match splitLines rest with
      | [] => [[c]]
      | l :: ls => (c :: l) :: ls

/-- The line loop of `STROKE_FONT::Draw`: each line but the last is
followed by a translation of one line height downward. -/
def drawLines (F : FontData) (lineHeight : Int) (s : GalState) :
    List (List Nat) → GalState × List Prim
  | [] => (s, [])
  | [l] => drawSingleLineText F s l
  | l :: l2 :: ls =>
    let r := drawSingleLineText F s l
    let s' := galTranslate r.1 ⟨0, (lineHeight : ℚ)⟩
    let rest := drawLines F lineHeight s' (l2 :: ls)
    (rest.1, r.2 ++ rest.2)

/-- Embedding of `STROKE_FONT::Draw`.  The rotation angle is carried by
its exact cosine/sine pair `(cosA, sinA)`; the source calls
`Rotate(-aRotationAngle)`, hence the rotation by `(cosA, -sinA)`.
Vertical justification translates by the glyph height (top) or half of
it (center), and for multiline text additionally by
`-(lineCount - 1) * lineHeight / 2` (center, integer division) or
`-(lineCount - 1) * lineHeight` (bottom).  Bold multiplies the line
width by `BOLD_FACTOR` after the line height was computed. -/
def Draw (F : FontData) (s : GalState) (aText : List Nat) (aPosition : Vector2D)
    (cosA sinA : ℚ) : GalState × List Prim :=
  if aText = [] then (s, [])
  else
    let s1 := galSave s
    let s2 := galTranslate s1 aPosition
    let s3 := galRotate s2 cosA (-sinA)
    let lineHeight : Int := getInterline s3.settings
    let lineCount : Int := ((splitLines aText).length : Int)
    let gy := s3.settings.glyphSize.y
    let s4 :=
      match s3.settings.vJustify with
      | .top => galTranslate s3 ⟨0, gy⟩
      | .center => galTranslate s3 ⟨0, gy / 2⟩
      | .bottom => s3
    let s5 :=
      if lineCount > 1 then
        match s4.settings.vJustify with
        | .top => s4
        | .center => galTranslate s4 ⟨0, ((-(lineCount - 1) * lineHeight / 2 : Int) : ℚ)⟩
        | .bottom => galTranslate s4 ⟨0, ((-((lineCount - 1) * lineHeight) : Int) : ℚ)⟩
      else s4
    let s6 := { s5 with settings := { s5.settings with isStroke := true } }
    let s7 :=
      if s6.settings.fontBold then
        { s6 with settings := { s6.settings with lineWidth := s6.settings.lineWidth * BOLD_FACTOR } }
      else s6
    let r := drawLines F lineHeight s7 (splitLines aText)
    (galRestore r.1, r.2)

/-- The sequence of glyphs a single-line run draws, as pairs of resolved
glyph index and overbar flag, following exactly the `~`-consumption of
the character loop of `drawSingleLineText`. -/
def renderPlan (n : Nat) (ob : Bool) : List Nat → List (Nat × Bool)
  | [] => []
  | c :: rest =>
    if c = 126 then
      match rest with
      | [] => []
      | c2 :: rest2 =>
        let ob2 := if c2 ≠ 126 then !ob else ob
        (glyphIndexOf n c2, ob2) :: renderPlan n ob2 rest2
    else (glyphIndexOf n c, ob) :: renderPlan n ob rest

/-- The arguments `drawSingleLineText` hands to its character loop:
emission transform, settings, glyph x scale, italic compensation and
initial `xOffset`. -/
structure LineArgs where
  T : Transform
  g : GalSettings
  gsX : ℚ
  comp : ℚ
  xo : ℚ

/-- The `LineArgs` computed by `drawSingleLineText` for a given state
and text (same let-chain as `drawSingleLineText` itself). -/
def singleLineArgs (F : FontData) (s : GalState) (aText : List Nat) : LineArgs :=
  let glyphSize := s.settings.glyphSize
  let comp0 := computeOverbarVerticalPosition s.settings * ITALIC_TILT
  let comp := if s.settings.textMirrored then -comp0 else comp0
  let textSize := computeTextLineSize F s.settings aText
  let half := s.settings.lineWidth / 2
  let s1 := galTranslate s ⟨half, 0⟩
  let s2 := galSave s1
  let s3 :=
    match s.settings.hJustify with
    | .center => galTranslate s2 ⟨-textSize.x / 2, 0⟩
    | .right => if ¬s.settings.textMirrored then galTranslate s2 ⟨-textSize.x, 0⟩ else s2
    | .left => if s.settings.textMirrored then galTranslate s2 ⟨-textSize.x, 0⟩ else s2
  let xo : ℚ := if s.settings.textMirrored then textSize.x - s.settings.lineWidth else 0
  let gsX : ℚ := if s.settings.textMirrored then -glyphSize.x else glyphSize.x
  ⟨s3.xform, s3.settings, gsX, comp, xo⟩

/-- Replay of the character loop over an explicit glyph plan: for each
`(dd, ob)` entry one `glyphStep` is executed. -/
def planFold (F : FontData) (T : Transform) (g : GalSettings) (gsX comp : ℚ)
    (lh : Bool) (xo : ℚ) : List (Nat × Bool) → List Prim × ℚ
  | [] => ([], xo)
  | e :: rest =>
    let st := glyphStep F T g gsX comp e.2 lh xo e.1
    let r := planFold F T g gsX comp st.2.1 st.2.2 rest
    (st.1 ++ r.1, r.2)

/-- Reflection of a point across the vertical axis `x = 0`. -/
def reflectPt (p : Vector2D) : Vector2D := ⟨-p.x, p.y⟩

/-- Reflection of an emitted primitive across the vertical axis `x = 0`. -/
def reflectPrim : Prim → Prim
  | .line p q => .line (reflectPt p) (reflectPt q)
  | .polyline pts => .polyline (pts.map reflectPt)

/-- The item type tags dispatched by `PCB_PAINTER::Draw`; `other` stands
for every remaining `KICAD_T` enumerator (those reach the `default`
label of the switch). -/
inductive ItemType where
  | PCB_ZONE_T
  | PCB_TRACE_T
  | PCB_VIA_T
  | PCB_PAD_T
  | PCB_LINE_T
  | PCB_MODULE_EDGE_T
  | PCB_TEXT_T
  | PCB_MODULE_TEXT_T
  | PCB_ZONE_AREA_T
  | PCB_DIMENSION_T
  | PCB_TARGET_T
  | other
deriving DecidableEq

/-- Tag for which overloaded `PCB_PAINTER::draw` a dispatch invokes (the
overload bodies translate the entity into GAL primitives; for the
dispatch contract only the fact that one is invoked matters). -/
inductive PainterCall where
  | drawTrack
  | drawVia
  | drawPad
  | drawSegment
  | drawPcbText
  | drawModuleText
  | drawZone
  | drawDimension
  | drawTarget
deriving DecidableEq

/-- Embedding of the dispatch switch of `PCB_PAINTER::Draw`: returns the
Boolean result together with the overload invocations issued; the
`default` path issues nothing and returns `false`. -/
def PCB_PAINTER_Draw (t : ItemType) : Bool × List PainterCall :=
  match t with
  | .PCB_ZONE_T => (true, [.drawTrack])
  | .PCB_TRACE_T => (true, [.drawTrack])
  | .PCB_VIA_T => (true, [.drawVia])
  | .PCB_PAD_T => (true, [.drawPad])
  | .PCB_LINE_T => (true, [.drawSegment])
  | .PCB_MODULE_EDGE_T => (true, [.drawSegment])
  | .PCB_TEXT_T => (true, [.drawPcbText])
  | .PCB_MODULE_TEXT_T => (true, [.drawModuleText])
  | .PCB_ZONE_AREA_T => (true, [.drawZone])
  | .PCB_DIMENSION_T => (true, [.drawDimension])
  | .PCB_TARGET_T => (true, [.drawTarget])
  | .other => (false, [])

/-- Retained-group state of the OpenGL backend.  Modelled from the spec:
the implementation of the group methods (opengl_gal.cpp) is not among
the provided sources, only their declarations in opengl_gal.h and the
`displayListsGroup` resource container; per the spec, `BeginGroup()`
returns a fresh handle and starts recording, `EndGroup()` stops
recording, and `DeleteGroup(handle)` releases the handle's backend
resource, with double-deletion a no-op rather than an error.  `live`
holds the handles of currently allocated backend resources. -/
structure GroupGal where
  nextHandle : Nat
  live : List Nat
  recording : Option Nat
  errored : Bool
deriving DecidableEq

/-- Modelled from the spec: `OPENGL_GAL::BeginGroup` allocates a backend
resource for a fresh handle, starts recording into it, and returns the
handle. -/
def BeginGroup (s : GroupGal) : Nat × GroupGal :=
  (s.nextHandle,
   { s with nextHandle := s.nextHandle + 1,
            live := s.live ++ [s.nextHandle],
            recording := some s.nextHandle })

/-- Modelled from the spec: `OPENGL_GAL::EndGroup` stops recording. -/
def EndGroup (s : GroupGal) : GroupGal :=
  { s with recording := none }

/-- Modelled from the spec: `OPENGL_GAL::DeleteGroup` releases the
handle's backend resource if it is still allocated and otherwise does
nothing (double-deletion is a no-op, not an error). -/
def DeleteGroup (s : GroupGal) (h : Nat) : GroupGal :=
  if h ∈ s.live then { s with live := s.live.erase h } else s

/-- The backend's group-resource count: number of allocated group
resources (size of `displayListsGroup`). -/
def groupResourceCount (s : GroupGal) : Nat := s.live.length

/-- Stroke accumulation as described by the claim wording for the glyph
entry format: every pair `" R"` terminates the current stroke and starts
a new one, every other pair appends the decoded point to the current
stroke (an empty stroke is not emitted, and a pending nonempty stroke is
emitted at the end). -/
def specStrokes (startX : ℚ) (cur : List Vector2D) (acc : GLYPH) :
    List (Nat × Nat) → GLYPH
  | [] => if cur ≠ [] then acc ++ [cur] else acc
  | (a, b) :: ps =>
    if a = 32 ∧ b = 82 then
      specStrokes startX [] (if cur ≠ [] then acc ++ [cur] else acc) ps
    else
      specStrokes startX
        (cur ++ [⟨((a : ℚ) - 82) * (1 / 21) - startX, ((b : ℚ) - 82 - 10) * (1 / 21)⟩]) acc ps

/-- Glyph decoding as worded by the claim: the first two characters give
`glyphStartX = (c0 - R) * (1/21)` and `glyphEndX = (c1 - R) * (1/21)`,
and each subsequent pair is decoded by `specStrokes`.  Returns the
strokes and the two bounds. -/
def specDecodeGlyph (c0 c1 : Nat) (ps : List (Nat × Nat)) : GLYPH × ℚ × ℚ :=
  let startX := ((c0 : ℚ) - 82) * (1 / 21)
  let endX := ((c1 : ℚ) - 82) * (1 / 21)
  (specStrokes startX [] [] ps, startX, endX)

/-- Flattening of a pair list into the corresponding character list. -/
def flatPairs (ps : List (Nat × Nat)) : List Nat :=
  (ps.map (fun q => [q.1, q.2])).flatten

/-- Recursion principle consuming a list one or two elements at a time,
matching the `~`-consumption of the stroke-font character loops. -/
def twoStepRec {α : Type} {P : List α → Prop}
    (h0 : P []) (h1 : ∀ a, P [a])
    (h2 : ∀ a b t, P t → P (b :: t) → P (a :: b :: t)) : ∀ l, P l
  | [] => h0
  | [a] => h1 a
  | a :: b :: t => h2 a b t (twoStepRec h0 h1 h2 t) (twoStepRec h0 h1 h2 (b :: t))

/-- Test glyph table: 36 entries (indices 0–35, so `'?' - ' ' = 31` and
`'A'..'C' - ' ' = 33..35` are in range), each `"JZ"` followed by the
coordinate pair `(R, M)`: advance bounds -8/21..8/21 and the single
point `(8/21, -5/7)`. -/
def testTable : List (List Nat) := List.replicate 36 [74, 90, 82, 77]

/-- The loaded test font. -/
def testFont : FontData := fontOfTable testTable

/-- Plain test settings: glyph size `(10, 10)`, line width 1, no style,
left/bottom justification. -/
def testSettings : GalSettings :=
  ⟨⟨10, 10⟩, 1, true, false, false, false, .left, .bottom⟩

/-- Test GAL state: identity transform, plain settings, empty stack. -/
def testState : GalState := ⟨idTransform, testSettings, []⟩

/-- The per-line settings of `STROKE_FONT::Draw`: stroke enabled
(`SetIsStroke(true)`) and, when bold, the line width multiplied by
`BOLD_FACTOR` (the bold scaling happens after the line height was
computed). -/
def drawLineSettings (g : GalSettings) : GalSettings :=
  if g.fontBold then
    { g with isStroke := true, lineWidth := g.lineWidth * BOLD_FACTOR }
  else { g with isStroke := true }

/-- An out-of-range character index resolves to `'?' - ' ' = 31`. -/
theorem glyphIndexOf_out (n c : Nat) (h : (c : Int) - 32 < 0 ∨ ((n : Int)) ≤ (c : Int) - 32) :
    glyphIndexOf n c = 31 := by
  unfold glyphIndexOf
  rcases h with h | h
  · simp only [if_pos (Or.inr h)]
  · simp only [if_pos (Or.inl h)]

/-- The character `'?'` itself always resolves to index 31. -/
theorem glyphIndexOf_qmark (n : Nat) : glyphIndexOf n 63 = 31 := by
  unfold glyphIndexOf
  by_cases h : (31 : Int) ≥ (n : Int) ∨ (31 : Int) < 0
  · simp only [show ((63 : Nat) : Int) - 32 = 31 by norm_num, if_pos h]
  · simp only [show ((63 : Nat) : Int) - 32 = 31 by norm_num, if_neg h]
    rfl

/-- Claim C10: `LoadNewStrokeFont` always returns `true` and leaves
`m_glyphs` and `m_glyphBoundingBoxes` with exactly one entry per table
entry, so both containers always have equal size — the invariant that
makes the `'?'` fallback index, checked only against
`m_glyphBoundingBoxes.size()`, a valid index into `m_glyphs` as well. -/
theorem loadNewStrokeFont_sizes (table : List (List Nat)) :
    (LoadNewStrokeFont table).1 = true ∧
    (LoadNewStrokeFont table).2.1.length = table.length ∧
    (LoadNewStrokeFont table).2.2.length = table.length ∧
    (LoadNewStrokeFont table).2.1.length = (LoadNewStrokeFont table).2.2.length := by
  simp [LoadNewStrokeFont]

/-- Claim C9: the painter dispatch returns `true` exactly on the eleven
handled item kinds and `(false, no calls)` on the default path. -/
theorem pcbPainterDraw_dispatch (t : ItemType) :
    ((PCB_PAINTER_Draw t).1 = true ↔
      t ∈ [ItemType.PCB_ZONE_T, ItemType.PCB_TRACE_T, ItemType.PCB_VIA_T,
           ItemType.PCB_PAD_T, ItemType.PCB_LINE_T, ItemType.PCB_MODULE_EDGE_T,
           ItemType.PCB_TEXT_T, ItemType.PCB_MODULE_TEXT_T, ItemType.PCB_ZONE_AREA_T,
           ItemType.PCB_DIMENSION_T, ItemType.PCB_TARGET_T]) ∧
    PCB_PAINTER_Draw ItemType.other = (false, []) := by
  cases t <;> simp [PCB_PAINTER_Draw]

/-- Claim C8: begin a group, end it, delete it twice: the second delete
is a no-op, the resource count is back at its pre-creation value after
the first delete, and no error state is entered. -/
theorem groupLifecycle (s : GroupGal) (hf : s.nextHandle ∉ s.live) :
    DeleteGroup (DeleteGroup (EndGroup (BeginGroup s).2) (BeginGroup s).1) (BeginGroup s).1
      = DeleteGroup (EndGroup (BeginGroup s).2) (BeginGroup s).1 ∧
    groupResourceCount (DeleteGroup (EndGroup (BeginGroup s).2) (BeginGroup s).1)
      = groupResourceCount s ∧
    (DeleteGroup (DeleteGroup (EndGroup (BeginGroup s).2) (BeginGroup s).1)
        (BeginGroup s).1).errored = s.errored := by
  have herase : (s.live ++ [s.nextHandle]).erase s.nextHandle = s.live := by
    rw [List.erase_append_right _ hf]
    simp
  have hmem : s.nextHandle ∈ s.live ++ [s.nextHandle] := by simp
  simp only [BeginGroup, EndGroup, DeleteGroup, groupResourceCount]
  simp only [if_pos hmem, herase, if_neg hf]
  exact ⟨trivial, trivial, trivial⟩

/-- Witness for claim C8 at a concrete empty backend state. -/
theorem groupLifecycle_witness :
    ((0 : Nat) ∉ (⟨0, [], none, false⟩ : GroupGal).live) ∧
    (DeleteGroup (DeleteGroup (EndGroup (BeginGroup ⟨0, [], none, false⟩).2)
        (BeginGroup ⟨0, [], none, false⟩).1) (BeginGroup ⟨0, [], none, false⟩).1
      = DeleteGroup (EndGroup (BeginGroup ⟨0, [], none, false⟩).2)
          (BeginGroup ⟨0, [], none, false⟩).1 ∧
    groupResourceCount (DeleteGroup (EndGroup (BeginGroup ⟨0, [], none, false⟩).2)
        (BeginGroup ⟨0, [], none, false⟩).1)
      = groupResourceCount ⟨0, [], none, false⟩ ∧
    (DeleteGroup (DeleteGroup (EndGroup (BeginGroup ⟨0, [], none, false⟩).2)
        (BeginGroup ⟨0, [], none, false⟩).1)
        (BeginGroup ⟨0, [], none, false⟩).1).errored
      = (⟨0, [], none, false⟩ : GroupGal).errored) :=
  ⟨by decide, groupLifecycle ⟨0, [], none, false⟩ (by decide)⟩

/-- Counterexample to claim C2 as stated: rendering `"~~ABC"` does not
produce the same draw calls as rendering `"ABC"` (the doubled `~~` draws
a literal tilde glyph first). -/
theorem tildeTilde_not_identical :
    (drawSingleLineText testFont testState [126, 126, 65, 66, 67]).2 ≠
      (drawSingleLineText testFont testState [65, 66, 67]).2 := by
  intro h
  have h4 : (drawSingleLineText testFont testState [126, 126, 65, 66, 67]).2.length = 4 := by
    rfl
  have h3 : (drawSingleLineText testFont testState [65, 66, 67]).2.length = 3 := by
    rfl
  rw [h, h3] at h4
  exact absurd h4 (by norm_num)

/-- Counterexample to claim C4 as stated: on the test font, for the
string `"A"` with line width 1, the boundary-limit width (181/21) is not
the advance sum accumulated in `xOffset` (160/21) — the code adds the
glyph thickness. -/
theorem boundaryWidth_ne_advanceSum :
    (ComputeStringBoundaryLimits testFont testSettings [65]
        (⟨10, 10⟩ : Vector2D) 1 false false).1.x ≠
      (drawLoop testFont (singleLineArgs testFont testState [65]).T
        (singleLineArgs testFont testState [65]).g
        (singleLineArgs testFont testState [65]).gsX
        (singleLineArgs testFont testState [65]).comp false false
        (singleLineArgs testFont testState [65]).xo [65]).2 := by
  intro h
  have h1 : (ComputeStringBoundaryLimits testFont testSettings [65]
      (⟨10, 10⟩ : Vector2D) 1 false false).1.x = 181 / 21 := by
    with_unfolding_all rfl
  have h2 : (drawLoop testFont (singleLineArgs testFont testState [65]).T
      (singleLineArgs testFont testState [65]).g
      (singleLineArgs testFont testState [65]).gsX
      (singleLineArgs testFont testState [65]).comp false false
      (singleLineArgs testFont testState [65]).xo [65]).2 = 160 / 21 := by
    with_unfolding_all rfl
  rw [h1, h2] at h
  norm_num at h

/-- Counterexample to claim C7 as stated: drawing `"~A~"` at glyph size
`(10, 10)`, position `(0, 0)`, rotation 0, line width 1 produces the
overbar at the claimed height `10 · 1.22 + 1 = 66/5`, but its x extent
(341/42 − 43/20) is NOT the glyph's advance width `10 · 16/21`: the
start is indented by the italic compensation `(66/5) · (1/8) = 33/20`. -/
theorem overbar_span_not_advance :
    (Draw testFont testState [126, 65, 126] (⟨0, 0⟩ : Vector2D) 1 0).2 =
      [Prim.line ⟨43 / 20, -(66 / 5)⟩ ⟨341 / 42, -(66 / 5)⟩,
       Prim.polyline [⟨181 / 42, -(50 / 7)⟩]] ∧
    ¬((341 : ℚ) / 42 - 43 / 20 =
        10 * (testFont.glyphBoundingBoxes.getD 33 defaultBox).theEnd.x) := by
  constructor
  · with_unfolding_all rfl
  · have he : (testFont.glyphBoundingBoxes.getD 33 defaultBox).theEnd.x = 16 / 21 := by
      with_unfolding_all rfl
    rw [he]
    norm_num

/-- One boundary step adds the looked-up box's `GetEnd().x` to the
running width. -/
theorem boundaryStep_x (boxes : List BOX2D) (wt wb : Bool) (rx a b : ℚ) (c : Nat) :
    (boundaryStep boxes wt wb rx a b c).1 =
      rx + (boxes.getD (glyphIndexOf boxes.length c) defaultBox).theEnd.x := rfl

/-- One glyph step advances `xOffset` by the glyph x scale times the
looked-up box's `GetEnd().x`. -/
theorem glyphStep_xo (F : FontData) (T : Transform) (g : GalSettings) (gsX comp : ℚ)
    (ob lh : Bool) (xo : ℚ) (dd : Nat) :
    (glyphStep F T g gsX comp ob lh xo dd).2.2 =
      xo + gsX * (F.glyphBoundingBoxes.getD dd defaultBox).theEnd.x := rfl

/-- One glyph step reports `ob` as the updated `last_had_overbar`. -/
theorem glyphStep_lh (F : FontData) (T : Transform) (g : GalSettings) (gsX comp : ℚ)
    (ob lh : Bool) (xo : ℚ) (dd : Nat) :
    (glyphStep F T g gsX comp ob lh xo dd).2.1 = ob := rfl

/-- The running width of the boundary loop splits off its accumulator. -/
theorem boundaryLoop_shift (boxes : List BOX2D) (wt wb : Bool) (cs : List Nat) :
    ∀ rx a b : ℚ, (boundaryLoop boxes wt wb rx a b cs).1 =
      rx + (boundaryLoop boxes wt wb 0 0 0 cs).1 := by
  induction cs using twoStepRec with
  | h0 =>
    intro rx a b
    simp [boundaryLoop]
  | h1 c =>
    intro rx a b
    by_cases hc : c = 126
    · simp [boundaryLoop, hc]
    · simp only [boundaryLoop, if_neg hc]
      simp [boundaryStep_x]
  | h2 c c2 t iht ihbt =>
    intro rx a b
    by_cases hc : c = 126
    · simp only [boundaryLoop, hc, eq_self_iff_true, if_true]
      rw [iht, iht ((boundaryStep boxes wt wb 0 0 0 c2).1) _ _]
      simp [boundaryStep_x]
      ring
    · simp only [boundaryLoop, if_neg hc]
      rw [ihbt, ihbt ((boundaryStep boxes wt wb 0 0 0 c).1) _ _]
      simp [boundaryStep_x]
      ring

/-- The final `xOffset` of the character loop of `drawSingleLineText` is
the initial one plus the glyph x scale times the width accumulated by
the loop of `ComputeStringBoundaryLimits` on the same string: both loops
resolve the same glyph sequence (including the `~` handling). -/
theorem drawLoop_xo_boundary (F : FontData) (T : Transform) (g : GalSettings)
    (gsX comp : ℚ) (wt wb : Bool) (cs : List Nat) :
    ∀ (ob lh : Bool) (xo : ℚ),
      (drawLoop F T g gsX comp ob lh xo cs).2 =
        xo + gsX * (boundaryLoop F.glyphBoundingBoxes wt wb 0 0 0 cs).1 := by
  induction cs using twoStepRec with
  | h0 =>
    intro ob lh xo
    simp [drawLoop, boundaryLoop]
  | h1 c =>
    intro ob lh xo
    by_cases hc : c = 126
    · simp [drawLoop, boundaryLoop, hc]
    · simp only [drawLoop, boundaryLoop, if_neg hc]
      simp [glyphStep_xo, boundaryStep_x, drawLoop]
  | h2 c c2 t iht ihbt =>
    intro ob lh xo
    by_cases hc : c = 126
    · simp only [drawLoop, boundaryLoop, hc, eq_self_iff_true, if_true]
      rw [iht, boundaryLoop_shift F.glyphBoundingBoxes wt wb t
        ((boundaryStep F.glyphBoundingBoxes wt wb 0 0 0 c2).1) _ _]
      simp [glyphStep_xo, boundaryStep_x]
      ring
    · simp only [drawLoop, boundaryLoop, if_neg hc]
      rw [ihbt, boundaryLoop_shift F.glyphBoundingBoxes wt wb (c2 :: t)
        ((boundaryStep F.glyphBoundingBoxes wt wb 0 0 0 c).1) _ _]
      simp [glyphStep_xo, boundaryStep_x]
      ring

/-- Claim C4, amended: for an unmirrored context, the width returned by
`ComputeStringBoundaryLimits` (at the GAL's glyph size and line width)
equals the advance sum accumulated in `xOffset` by the character loop of
`drawSingleLineText` on the same string, PLUS the glyph thickness (line
width), plus `glyphSize.y * ITALIC_TILT` when italic is active. -/
theorem boundaryWidth_eq_advance_plus_thickness (F : FontData) (s : GalState)
    (text : List Nat) (wt wb : Bool) (hm : s.settings.textMirrored = false) :
    (ComputeStringBoundaryLimits F s.settings text s.settings.glyphSize
        s.settings.lineWidth wt wb).1.x =
      ((drawLoop F (singleLineArgs F s text).T (singleLineArgs F s text).g
          (singleLineArgs F s text).gsX (singleLineArgs F s text).comp false false
          (singleLineArgs F s text).xo text).2 - (singleLineArgs F s text).xo) +
        s.settings.lineWidth +
        (if s.settings.fontItalic then s.settings.glyphSize.y * ITALIC_TILT else 0) := by
  have hxo : (singleLineArgs F s text).xo = 0 := by
    simp [singleLineArgs, hm]
  have hgsX : (singleLineArgs F s text).gsX = s.settings.glyphSize.x := by
    simp [singleLineArgs, hm]
  rw [drawLoop_xo_boundary F (singleLineArgs F s text).T (singleLineArgs F s text).g
    (singleLineArgs F s text).gsX (singleLineArgs F s text).comp wt wb text false false
    (singleLineArgs F s text).xo, hxo, hgsX]
  simp only [ComputeStringBoundaryLimits]
  by_cases hi : s.settings.fontItalic
  · simp only [hi, if_true]
    ring
  · simp only [hi, if_false, Bool.false_eq_true]
    ring

/-- Witness for the amended claim C4 at the test font, string `"AB"`. -/
theorem boundaryWidth_eq_advance_witness :
    testState.settings.textMirrored = false ∧
    (ComputeStringBoundaryLimits testFont testState.settings [65, 66]
        testState.settings.glyphSize testState.settings.lineWidth false false).1.x =
      ((drawLoop testFont (singleLineArgs testFont testState [65, 66]).T
          (singleLineArgs testFont testState [65, 66]).g
          (singleLineArgs testFont testState [65, 66]).gsX
          (singleLineArgs testFont testState [65, 66]).comp false false
          (singleLineArgs testFont testState [65, 66]).xo [65, 66]).2 -
          (singleLineArgs testFont testState [65, 66]).xo) +
        testState.settings.lineWidth +
        (if testState.settings.fontItalic then
          testState.settings.glyphSize.y * ITALIC_TILT else 0) :=
  ⟨rfl, boundaryWidth_eq_advance_plus_thickness testFont testState [65, 66] false false rfl⟩

/-- The character loop of `drawSingleLineText` is the replay of its
render plan: same primitives and same final `xOffset`. -/
theorem drawLoop_eq_planFold (F : FontData) (T : Transform) (g : GalSettings)
    (gsX comp : ℚ) (cs : List Nat) :
    ∀ (ob lh : Bool) (xo : ℚ),
      drawLoop F T g gsX comp ob lh xo cs =
        planFold F T g gsX comp lh xo (renderPlan F.glyphBoundingBoxes.length ob cs) := by
  induction cs using twoStepRec with
  | h0 =>
    intro ob lh xo
    simp [drawLoop, renderPlan, planFold]
  | h1 c =>
    intro ob lh xo
    by_cases hc : c = 126
    · simp [drawLoop, renderPlan, planFold, hc]
    · simp [drawLoop, renderPlan, planFold, if_neg hc]
  | h2 c c2 t iht ihbt =>
    intro ob lh xo
    by_cases hc : c = 126
    · simp only [drawLoop, renderPlan, hc, eq_self_iff_true, if_true, planFold]
      rw [iht]
    · simp only [drawLoop, renderPlan, if_neg hc, planFold]
      rw [ihbt]

/-- The primitives of `drawSingleLineText` are the replay of the render
plan of the text under the arguments the function computes. -/
theorem drawSingleLineText_planFold (F : FontData) (s : GalState) (cs : List Nat) :
    (drawSingleLineText F s cs).2 =
      (planFold F (singleLineArgs F s cs).T (singleLineArgs F s cs).g
        (singleLineArgs F s cs).gsX (singleLineArgs F s cs).comp false
        (singleLineArgs F s cs).xo
        (renderPlan F.glyphBoundingBoxes.length false cs)).1 := by
  rw [← drawLoop_eq_planFold]
  rfl

/-- Line-primitive counting distributes over append. -/
theorem countLinePrims_append (a b : List Prim) :
    countLinePrims (a ++ b) = countLinePrims a + countLinePrims b := by
  simp [countLinePrims, List.filter_append]

/-- A list of polylines contains no line primitives. -/
theorem countLinePrims_polyline_map {α : Type} (h : α → List Vector2D) (l : List α) :
    countLinePrims (l.map (fun s => Prim.polyline (h s))) = 0 := by
  induction l with
  | nil => rfl
  | cons a t ih =>
    simpa [countLinePrims, List.filter_cons] using ih

/-- One glyph step draws exactly one `DrawLine` when the overbar is
active and none otherwise. -/
theorem countLinePrims_glyphStep (F : FontData) (T : Transform) (g : GalSettings)
    (gsX comp : ℚ) (ob lh : Bool) (xo : ℚ) (dd : Nat) :
    countLinePrims (glyphStep F T g gsX comp ob lh xo dd).1 = if ob then 1 else 0 := by
  unfold glyphStep
  cases ob
  · simpa using countLinePrims_polyline_map _ (F.glyphs.getD dd [])
  · rw [countLinePrims_append]
    simpa [countLinePrims] using countLinePrims_polyline_map
      (fun stroke => stroke.map _) (F.glyphs.getD dd [])

/-- The number of `DrawLine` primitives of a plan replay equals the
number of plan entries with the overbar flag on. -/
theorem countLinePrims_planFold (F : FontData) (T : Transform) (g : GalSettings)
    (gsX comp : ℚ) (plan : List (Nat × Bool)) :
    ∀ (lh : Bool) (xo : ℚ),
      countLinePrims (planFold F T g gsX comp lh xo plan).1 =
        (plan.filter (fun e => e.2)).length := by
  induction plan with
  | nil =>
    intro lh xo
    rfl
  | cons e t ih =>
    intro lh xo
    simp only [planFold, countLinePrims_append, countLinePrims_glyphStep, ih,
      List.filter_cons]
    cases he : e.2 <;> simp [he, Nat.add_comm]

/-- Claim C2, amended: rendering `"~~ABC"` draws a literal tilde glyph
followed by the glyphs of `A`, `B`, `C`, none with an overbar (the
doubled `~~` does not toggle but does draw the second tilde as a glyph),
and no `DrawLine` is emitted; rendering `"~ABC~"` draws exactly the
glyphs of `A`, `B`, `C`, each with an overbar, emitting exactly three
`DrawLine` segments. -/
theorem overbarToggle_amended (F : FontData) (s : GalState) :
    renderPlan F.glyphBoundingBoxes.length false [126, 126, 65, 66, 67] =
      [(glyphIndexOf F.glyphBoundingBoxes.length 126, false),
       (glyphIndexOf F.glyphBoundingBoxes.length 65, false),
       (glyphIndexOf F.glyphBoundingBoxes.length 66, false),
       (glyphIndexOf F.glyphBoundingBoxes.length 67, false)] ∧
    renderPlan F.glyphBoundingBoxes.length false [126, 65, 66, 67, 126] =
      [(glyphIndexOf F.glyphBoundingBoxes.length 65, true),
       (glyphIndexOf F.glyphBoundingBoxes.length 66, true),
       (glyphIndexOf F.glyphBoundingBoxes.length 67, true)] ∧
    (drawSingleLineText F s [126, 126, 65, 66, 67]).2 =
      (planFold F (singleLineArgs F s [126, 126, 65, 66, 67]).T
        (singleLineArgs F s [126, 126, 65, 66, 67]).g
        (singleLineArgs F s [126, 126, 65, 66, 67]).gsX
        (singleLineArgs F s [126, 126, 65, 66, 67]).comp false
        (singleLineArgs F s [126, 126, 65, 66, 67]).xo
        [(glyphIndexOf F.glyphBoundingBoxes.length 126, false),
         (glyphIndexOf F.glyphBoundingBoxes.length 65, false),
         (glyphIndexOf F.glyphBoundingBoxes.length 66, false),
         (glyphIndexOf F.glyphBoundingBoxes.length 67, false)]).1 ∧
    (drawSingleLineText F s [126, 65, 66, 67, 126]).2 =
      (planFold F (singleLineArgs F s [126, 65, 66, 67, 126]).T
        (singleLineArgs F s [126, 65, 66, 67, 126]).g
        (singleLineArgs F s [126, 65, 66, 67, 126]).gsX
        (singleLineArgs F s [126, 65, 66, 67, 126]).comp false
        (singleLineArgs F s [126, 65, 66, 67, 126]).xo
        [(glyphIndexOf F.glyphBoundingBoxes.length 65, true),
         (glyphIndexOf F.glyphBoundingBoxes.length 66, true),
         (glyphIndexOf F.glyphBoundingBoxes.length 67, true)]).1 ∧
    countLinePrims (drawSingleLineText F s [126, 126, 65, 66, 67]).2 = 0 ∧
    countLinePrims (drawSingleLineText F s [126, 65, 66, 67, 126]).2 = 3 := by
  have hp1 : renderPlan F.glyphBoundingBoxes.length false [126, 126, 65, 66, 67] =
      [(glyphIndexOf F.glyphBoundingBoxes.length 126, false),
       (glyphIndexOf F.glyphBoundingBoxes.length 65, false),
       (glyphIndexOf F.glyphBoundingBoxes.length 66, false),
       (glyphIndexOf F.glyphBoundingBoxes.length 67, false)] := rfl
  have hp2 : renderPlan F.glyphBoundingBoxes.length false [126, 65, 66, 67, 126] =
      [(glyphIndexOf F.glyphBoundingBoxes.length 65, true),
       (glyphIndexOf F.glyphBoundingBoxes.length 66, true),
       (glyphIndexOf F.glyphBoundingBoxes.length 67, true)] := rfl
  refine ⟨hp1, hp2, ?_, ?_, ?_, ?_⟩
  · rw [drawSingleLineText_planFold, hp1]
  · rw [drawSingleLineText_planFold, hp2]
  · rw [drawSingleLineText_planFold, hp1, countLinePrims_planFold]
    rfl
  · rw [drawSingleLineText_planFold, hp2, countLinePrims_planFold]
    rfl

/-- Equation of `renderPlan` at a lone trailing tilde. -/
theorem renderPlan_tilde_nil (n : Nat) (ob : Bool) : renderPlan n ob [126] = [] := rfl

/-- Equation of `renderPlan` at a tilde followed by another character. -/
theorem renderPlan_tilde (n : Nat) (ob : Bool) (c2 : Nat) (rest2 : List Nat) :
    renderPlan n ob (126 :: c2 :: rest2) =
      (glyphIndexOf n c2, if c2 ≠ 126 then !ob else ob) ::
        renderPlan n (if c2 ≠ 126 then !ob else ob) rest2 := rfl

/-- Equation of `renderPlan` at a non-tilde character. -/
theorem renderPlan_cons (n : Nat) (ob : Bool) (c : Nat) (rest : List Nat) (hc : c ≠ 126) :
    renderPlan n ob (c :: rest) = (glyphIndexOf n c, ob) :: renderPlan n ob rest := by
  rw [renderPlan.eq_def]
  simp only [if_neg hc]

/-- Equation of `boundaryLoop` at a lone trailing tilde. -/
theorem boundaryLoop_tilde_nil (boxes : List BOX2D) (wt wb : Bool) (rx a b : ℚ) :
    boundaryLoop boxes wt wb rx a b [126] = (rx, a, b) := rfl

/-- Equation of `boundaryLoop` at a tilde followed by another character. -/
theorem boundaryLoop_tilde (boxes : List BOX2D) (wt wb : Bool) (rx a b : ℚ)
    (c2 : Nat) (rest2 : List Nat) :
    boundaryLoop boxes wt wb rx a b (126 :: c2 :: rest2) =
      boundaryLoop boxes wt wb (boundaryStep boxes wt wb rx a b c2).1
        (boundaryStep boxes wt wb rx a b c2).2.1
        (boundaryStep boxes wt wb rx a b c2).2.2 rest2 := rfl

/-- Equation of `boundaryLoop` at a non-tilde character. -/
theorem boundaryLoop_cons (boxes : List BOX2D) (wt wb : Bool) (rx a b : ℚ)
    (c : Nat) (rest : List Nat) (hc : c ≠ 126) :
    boundaryLoop boxes wt wb rx a b (c :: rest) =
      boundaryLoop boxes wt wb (boundaryStep boxes wt wb rx a b c).1
        (boundaryStep boxes wt wb rx a b c).2.1
        (boundaryStep boxes wt wb rx a b c).2.2 rest := by
  rw [boundaryLoop.eq_def]
  simp only [if_neg hc]

/-- Equation of `drawLoop` at a lone trailing tilde. -/
theorem drawLoop_tilde_nil (F : FontData) (T : Transform) (g : GalSettings)
    (gsX comp : ℚ) (ob lh : Bool) (xo : ℚ) :
    drawLoop F T g gsX comp ob lh xo [126] = ([], xo) := rfl

/-- Equation of `drawLoop` at a tilde followed by another character. -/
theorem drawLoop_tilde (F : FontData) (T : Transform) (g : GalSettings)
    (gsX comp : ℚ) (ob lh : Bool) (xo : ℚ) (c2 : Nat) (rest2 : List Nat) :
    drawLoop F T g gsX comp ob lh xo (126 :: c2 :: rest2) =
      ((glyphStep F T g gsX comp (if c2 ≠ 126 then !ob else ob) lh xo
          (glyphIndexOf F.glyphBoundingBoxes.length c2)).1 ++
        (drawLoop F T g gsX comp (if c2 ≠ 126 then !ob else ob)
          (glyphStep F T g gsX comp (if c2 ≠ 126 then !ob else ob) lh xo
            (glyphIndexOf F.glyphBoundingBoxes.length c2)).2.1
          (glyphStep F T g gsX comp (if c2 ≠ 126 then !ob else ob) lh xo
            (glyphIndexOf F.glyphBoundingBoxes.length c2)).2.2 rest2).1,
       (drawLoop F T g gsX comp (if c2 ≠ 126 then !ob else ob)
          (glyphStep F T g gsX comp (if c2 ≠ 126 then !ob else ob) lh xo
            (glyphIndexOf F.glyphBoundingBoxes.length c2)).2.1
          (glyphStep F T g gsX comp (if c2 ≠ 126 then !ob else ob) lh xo
            (glyphIndexOf F.glyphBoundingBoxes.length c2)).2.2 rest2).2) := rfl

/-- Equation of `drawLoop` at a non-tilde character. -/
theorem drawLoop_cons (F : FontData) (T : Transform) (g : GalSettings)
    (gsX comp : ℚ) (ob lh : Bool) (xo : ℚ) (c : Nat) (rest : List Nat) (hc : c ≠ 126) :
    drawLoop F T g gsX comp ob lh xo (c :: rest) =
      ((glyphStep F T g gsX comp ob lh xo (glyphIndexOf F.glyphBoundingBoxes.length c)).1 ++
        (drawLoop F T g gsX comp ob
          (glyphStep F T g gsX comp ob lh xo (glyphIndexOf F.glyphBoundingBoxes.length c)).2.1
          (glyphStep F T g gsX comp ob lh xo (glyphIndexOf F.glyphBoundingBoxes.length c)).2.2
          rest).1,
       (drawLoop F T g gsX comp ob
          (glyphStep F T g gsX comp ob lh xo (glyphIndexOf F.glyphBoundingBoxes.length c)).2.1
          (glyphStep F T g gsX comp ob lh xo (glyphIndexOf F.glyphBoundingBoxes.length c)).2.2
          rest).2) := by
  rw [drawLoop.eq_def]
  simp only [if_neg hc]

/-- Replacing the head character by `'?'` does not change the render
plan when both resolve to the same glyph index. -/
theorem renderPlan_subst_head (n c : Nat) (hc : c ≠ 126)
    (hidx : glyphIndexOf n c = glyphIndexOf n 63) (s2 : List Nat) (ob : Bool) :
    renderPlan n ob (c :: s2) = renderPlan n ob (63 :: s2) := by
  rw [renderPlan_cons n ob c s2 hc, renderPlan_cons n ob 63 s2 (by norm_num), hidx]

/-- Replacing one non-tilde character by `'?'` anywhere does not change
the render plan when both resolve to the same glyph index. -/
theorem renderPlan_subst (n c : Nat) (hc : c ≠ 126)
    (hidx : glyphIndexOf n c = glyphIndexOf n 63) (s2 s1 : List Nat) :
    ∀ ob : Bool, renderPlan n ob (s1 ++ c :: s2) = renderPlan n ob (s1 ++ 63 :: s2) := by
  induction s1 using twoStepRec with
  | h0 =>
    intro ob
    simp only [List.nil_append]
    exact renderPlan_subst_head n c hc hidx s2 ob
  | h1 a =>
    intro ob
    by_cases ha : a = 126
    · subst ha
      simp only [List.cons_append, List.nil_append]
      rw [renderPlan_tilde, renderPlan_tilde, if_pos hc,
        if_pos (show (63 : Nat) ≠ 126 by norm_num), hidx]
    · simp only [List.cons_append, List.nil_append]
      rw [renderPlan_cons n ob a (c :: s2) ha, renderPlan_cons n ob a (63 :: s2) ha,
        renderPlan_subst_head n c hc hidx s2 ob]
  | h2 a b t iht ihbt =>
    intro ob
    by_cases ha : a = 126
    · subst ha
      simp only [List.cons_append]
      rw [renderPlan_tilde, renderPlan_tilde, iht]
    · simp only [List.cons_append]
      simp only [List.cons_append] at ihbt
      rw [renderPlan_cons n ob a (b :: (t ++ c :: s2)) ha,
        renderPlan_cons n ob a (b :: (t ++ 63 :: s2)) ha, ihbt]

/-- Replacing the head character by `'?'` does not change the boundary
loop when both resolve to the same glyph index. -/
theorem boundaryLoop_subst_head (boxes : List BOX2D) (wt wb : Bool) (c : Nat)
    (hc : c ≠ 126) (hidx : glyphIndexOf boxes.length c = glyphIndexOf boxes.length 63)
    (s2 : List Nat) (rx a b : ℚ) :
    boundaryLoop boxes wt wb rx a b (c :: s2) = boundaryLoop boxes wt wb rx a b (63 :: s2) := by
  have hbs : boundaryStep boxes wt wb rx a b c = boundaryStep boxes wt wb rx a b 63 := by
    unfold boundaryStep
    rw [hidx]
  rw [boundaryLoop_cons boxes wt wb rx a b c s2 hc,
    boundaryLoop_cons boxes wt wb rx a b 63 s2 (by norm_num), hbs]

/-- Replacing one non-tilde character by `'?'` anywhere does not change
the boundary loop when both resolve to the same glyph index. -/
theorem boundaryLoop_subst (boxes : List BOX2D) (wt wb : Bool) (c : Nat)
    (hc : c ≠ 126) (hidx : glyphIndexOf boxes.length c = glyphIndexOf boxes.length 63)
    (s2 s1 : List Nat) :
    ∀ rx a b : ℚ,
      boundaryLoop boxes wt wb rx a b (s1 ++ c :: s2) =
        boundaryLoop boxes wt wb rx a b (s1 ++ 63 :: s2) := by
  induction s1 using twoStepRec with
  | h0 =>
    intro rx a b
    simp only [List.nil_append]
    exact boundaryLoop_subst_head boxes wt wb c hc hidx s2 rx a b
  | h1 a0 =>
    intro rx a b
    by_cases ha : a0 = 126
    · subst ha
      have hbs : boundaryStep boxes wt wb rx a b c = boundaryStep boxes wt wb rx a b 63 := by
        unfold boundaryStep
        rw [hidx]
      simp only [List.cons_append, List.nil_append]
      rw [boundaryLoop_tilde, boundaryLoop_tilde, hbs]
    · simp only [List.cons_append, List.nil_append]
      rw [boundaryLoop_cons boxes wt wb rx a b a0 (c :: s2) ha,
        boundaryLoop_cons boxes wt wb rx a b a0 (63 :: s2) ha,
        boundaryLoop_subst_head boxes wt wb c hc hidx s2]
  | h2 a0 b0 t iht ihbt =>
    intro rx a b
    by_cases ha : a0 = 126
    · subst ha
      simp only [List.cons_append]
      rw [boundaryLoop_tilde, boundaryLoop_tilde, iht]
    · simp only [List.cons_append]
      simp only [List.cons_append] at ihbt
      rw [boundaryLoop_cons boxes wt wb rx a b a0 (b0 :: (t ++ c :: s2)) ha,
        boundaryLoop_cons boxes wt wb rx a b a0 (b0 :: (t ++ 63 :: s2)) ha, ihbt]

/-- The state returned by `drawSingleLineText` is the input state with
the half-thickness translation applied: the inner `Save` is matched by
the final `Restore`, while the translation before the `Save` leaks to
the caller. -/
theorem drawSingleLineText_state (F : FontData) (s : GalState) (cs : List Nat) :
    (drawSingleLineText F s cs).1 = galTranslate s ⟨s.settings.lineWidth / 2, 0⟩ := by
  unfold drawSingleLineText
  cases hj : s.settings.hJustify <;> cases hm : s.settings.textMirrored <;>
    simp [galSave, galRestore, galTranslate, hj, hm]

/-- Equal text sizes give equal single-line arguments (the text enters
the argument computation only through `computeTextLineSize`). -/
theorem singleLineArgs_congr (F : FontData) (s : GalState) (l1 l2 : List Nat)
    (h : computeTextLineSize F s.settings l1 = computeTextLineSize F s.settings l2) :
    singleLineArgs F s l1 = singleLineArgs F s l2 := by
  unfold singleLineArgs
  rw [h]

/-- Claim C1: a character whose index (code minus `' '`) is negative or
at least the size of the glyph bounding-box table resolves to the index
of `'?'`, and both `drawSingleLineText` and
`ComputeStringBoundaryLimits` behave on it exactly as on `'?'`. -/
theorem glyphFallback (F : FontData) (s : GalState) (gs : Vector2D) (gt : ℚ)
    (wt wb : Bool) (c : Nat) (s1 s2 : List Nat) (hc : c ≠ 126)
    (hout : (c : Int) - 32 < 0 ∨ ((F.glyphBoundingBoxes.length : Nat) : Int) ≤ (c : Int) - 32) :
    glyphIndexOf F.glyphBoundingBoxes.length c = 31 ∧
    drawSingleLineText F s (s1 ++ c :: s2) = drawSingleLineText F s (s1 ++ 63 :: s2) ∧
    ComputeStringBoundaryLimits F s.settings (s1 ++ c :: s2) gs gt wt wb =
      ComputeStringBoundaryLimits F s.settings (s1 ++ 63 :: s2) gs gt wt wb := by
  have hidx : glyphIndexOf F.glyphBoundingBoxes.length c =
      glyphIndexOf F.glyphBoundingBoxes.length 63 := by
    rw [glyphIndexOf_out _ _ hout, glyphIndexOf_qmark]
  have hcsbl : ∀ (gs' : Vector2D) (gt' : ℚ) (wt' wb' : Bool),
      ComputeStringBoundaryLimits F s.settings (s1 ++ c :: s2) gs' gt' wt' wb' =
        ComputeStringBoundaryLimits F s.settings (s1 ++ 63 :: s2) gs' gt' wt' wb' := by
    intro gs' gt' wt' wb'
    unfold ComputeStringBoundaryLimits
    rw [boundaryLoop_subst F.glyphBoundingBoxes wt' wb' c hc hidx s2 s1 0 0 0]
  have htls : computeTextLineSize F s.settings (s1 ++ c :: s2) =
      computeTextLineSize F s.settings (s1 ++ 63 :: s2) := by
    unfold computeTextLineSize
    rw [hcsbl]
  refine ⟨by rw [glyphIndexOf_out _ _ hout], ?_, hcsbl gs gt wt wb⟩
  have h1 : (drawSingleLineText F s (s1 ++ c :: s2)).1 =
      (drawSingleLineText F s (s1 ++ 63 :: s2)).1 := by
    rw [drawSingleLineText_state, drawSingleLineText_state]
  have h2 : (drawSingleLineText F s (s1 ++ c :: s2)).2 =
      (drawSingleLineText F s (s1 ++ 63 :: s2)).2 := by
    rw [drawSingleLineText_planFold, drawSingleLineText_planFold,
      singleLineArgs_congr F s (s1 ++ c :: s2) (s1 ++ 63 :: s2) htls,
      renderPlan_subst F.glyphBoundingBoxes.length c hc hidx s2 s1 false]
  exact Prod.ext h1 h2

/-- Witness for claim C1 at the control character 5 (index 5 − 32 < 0)
inside the string `"A.B"` on the test font. -/
theorem glyphFallback_witness :
    ((5 : Nat) ≠ 126 ∧
      (((5 : Nat) : Int) - 32 < 0 ∨
        ((testFont.glyphBoundingBoxes.length : Nat) : Int) ≤ ((5 : Nat) : Int) - 32)) ∧
    (glyphIndexOf testFont.glyphBoundingBoxes.length 5 = 31 ∧
     drawSingleLineText testFont testState ([65] ++ 5 :: [66]) =
       drawSingleLineText testFont testState ([65] ++ 63 :: [66]) ∧
     ComputeStringBoundaryLimits testFont testState.settings ([65] ++ 5 :: [66])
         (⟨10, 10⟩ : Vector2D) 1 false false =
       ComputeStringBoundaryLimits testFont testState.settings ([65] ++ 63 :: [66])
         (⟨10, 10⟩ : Vector2D) 1 false false) :=
  ⟨⟨by norm_num, Or.inl (by norm_num)⟩,
   glyphFallback testFont testState ⟨10, 10⟩ 1 false false 5 [65] [66]
     (by norm_num) (Or.inl (by norm_num))⟩

/-- One glyph step of a mirrored run (negated glyph x scale and italic
compensation, translation `aM`) is the x-axis reflection of the step of
the unmirrored run (translation `aU`), provided the translations and the
two `xOffset` values cancel: `aU + aM + xoU + xoM = 0`. -/
theorem glyphStep_mirror (F : FontData) (gU : GalSettings) (hU : gU.textMirrored = false)
    (aU aM bU bM c0 : ℚ) (hb : bU = bM) (ob lh : Bool) (xoU xoM : ℚ) (dd : Nat)
    (hinv : aU + aM + xoU + xoM = 0) :
    (glyphStep F (translateT aM bM) { gU with textMirrored := true }
        (-gU.glyphSize.x) (-c0) ob lh xoM dd).1 =
      ((glyphStep F (translateT aU bU) gU gU.glyphSize.x c0 ob lh xoU dd).1).map
        reflectPrim := by
  subst hb
  obtain ⟨⟨gsx, gsy⟩, w, isk, bold, ital, mir, hj, vj⟩ := gU
  simp only at hU
  subst hU
  simp only [glyphStep, List.map_append, List.map_map]
  congr 1
  · cases ob
    · simp
    · cases lh <;>
        simp only [eq_self_iff_true, if_true, if_neg Bool.false_ne_true, List.map_cons,
          List.map_nil, reflectPrim, reflectPt, computeOverbarVerticalPosition,
          ComputeOverbarVerticalPosition] <;>
        congr 1 <;>
        congr 1 <;>
        (ext <;> simp only [applyT, translateT, reflectPt] <;>
          (first
            | ring1
            | linear_combination hinv))
  · apply List.map_congr_left
    intro stroke _
    simp only [Function.comp_apply, reflectPrim, List.map_map]
    congr 1
    apply List.map_congr_left
    intro p _
    simp only [Function.comp_apply]
    cases ital <;>
      simp only [eq_self_iff_true, if_true, if_neg Bool.false_ne_true] <;>
      (ext <;> simp only [applyT, translateT, reflectPt] <;>
        (first
          | ring1
          | linear_combination hinv))

/-- The character loop of a mirrored run (negated glyph x scale and
italic compensation, `xOffset` starting at `xoM`) emits exactly the
x-axis reflection of the unmirrored run, and the two `xOffset` values
keep a constant sum, provided `aU + aM + xoU + xoM = 0`. -/
theorem drawLoop_mirror (F : FontData) (gU : GalSettings) (hU : gU.textMirrored = false)
    (bU bM c0 : ℚ) (hb : bU = bM) (cs : List Nat) :
    ∀ (ob lh : Bool) (aU aM xoU xoM : ℚ), aU + aM + xoU + xoM = 0 →
      (drawLoop F (translateT aM bM) { gU with textMirrored := true }
          (-gU.glyphSize.x) (-c0) ob lh xoM cs).1 =
        ((drawLoop F (translateT aU bU) gU gU.glyphSize.x c0 ob lh xoU cs).1).map
          reflectPrim ∧
      (drawLoop F (translateT aM bM) { gU with textMirrored := true }
          (-gU.glyphSize.x) (-c0) ob lh xoM cs).2 +
        (drawLoop F (translateT aU bU) gU gU.glyphSize.x c0 ob lh xoU cs).2 =
          xoM + xoU := by
  induction cs using twoStepRec with
  | h0 =>
    intro ob lh aU aM xoU xoM hinv
    simp [drawLoop]
  | h1 c =>
    intro ob lh aU aM xoU xoM hinv
    by_cases hc : c = 126
    · subst hc
      simp [drawLoop_tilde_nil]
    · rw [drawLoop_cons F (translateT aM bM) { gU with textMirrored := true }
          (-gU.glyphSize.x) (-c0) ob lh xoM c [] hc,
        drawLoop_cons F (translateT aU bU) gU gU.glyphSize.x c0 ob lh xoU c [] hc]
      constructor
      · simp only [drawLoop, List.append_nil, List.map_append]
        rw [glyphStep_mirror F gU hU aU aM bU bM c0 hb ob lh xoU xoM
          (glyphIndexOf F.glyphBoundingBoxes.length c) hinv]
      · simp only [drawLoop, glyphStep_xo]
        ring
  | h2 c b t iht ihbt =>
    intro ob lh aU aM xoU xoM hinv
    by_cases hc : c = 126
    · subst hc
      rw [drawLoop_tilde, drawLoop_tilde]
      simp only [glyphStep_lh, glyphStep_xo]
      obtain ⟨ih1, ih2⟩ := iht (if b ≠ 126 then !ob else ob) (if b ≠ 126 then !ob else ob)
        aU aM
        (xoU + gU.glyphSize.x * (F.glyphBoundingBoxes.getD
          (glyphIndexOf F.glyphBoundingBoxes.length b) defaultBox).theEnd.x)
        (xoM + -gU.glyphSize.x * (F.glyphBoundingBoxes.getD
          (glyphIndexOf F.glyphBoundingBoxes.length b) defaultBox).theEnd.x)
        (by linear_combination hinv)
      constructor
      · simp only [List.map_append]
        rw [glyphStep_mirror F gU hU aU aM bU bM c0 hb _ lh xoU xoM
          (glyphIndexOf F.glyphBoundingBoxes.length b) hinv, ih1]
      · rw [ih2]
        ring
    · rw [drawLoop_cons F (translateT aM bM) { gU with textMirrored := true }
          (-gU.glyphSize.x) (-c0) ob lh xoM c (b :: t) hc,
        drawLoop_cons F (translateT aU bU) gU gU.glyphSize.x c0 ob lh xoU c (b :: t) hc]
      simp only [glyphStep_lh, glyphStep_xo]
      obtain ⟨ih1, ih2⟩ := ihbt ob ob
        aU aM
        (xoU + gU.glyphSize.x * (F.glyphBoundingBoxes.getD
          (glyphIndexOf F.glyphBoundingBoxes.length c) defaultBox).theEnd.x)
        (xoM + -gU.glyphSize.x * (F.glyphBoundingBoxes.getD
          (glyphIndexOf F.glyphBoundingBoxes.length c) defaultBox).theEnd.x)
        (by linear_combination hinv)
      constructor
      · simp only [List.map_append]
        rw [glyphStep_mirror F gU hU aU aM bU bM c0 hb ob lh xoU xoM
          (glyphIndexOf F.glyphBoundingBoxes.length c) hinv, ih1]
      · rw [ih2]
        ring

/-- Claim C5: for every single-line string, the run with text mirroring
enabled (which starts `xOffset` at `textSize.x - lineWidth` and negates
`glyphSize.x`) emits exactly the x-axis reflection (about the text
anchor) of the unmirrored run, so reflecting the mirrored geometry back
reproduces the unmirrored geometry exactly. -/
theorem mirroredRoundTrip (F : FontData) (s : GalState) (text : List Nat)
    (hx : s.xform = idTransform) (hm : s.settings.textMirrored = false) :
    (drawSingleLineText F { s with settings :=
        { s.settings with textMirrored := true } } text).2 =
      ((drawSingleLineText F s text).2).map reflectPrim := by
  obtain ⟨x, set, stk⟩ := s
  simp only at hx hm
  subst hx
  obtain ⟨⟨gsx, gsy⟩, w, isk, bold, ital, mir, hj, vj⟩ := set
  simp only at hm
  subst hm
  have hT : ∀ hj' : HJustify,
      computeTextLineSize F ⟨⟨gsx, gsy⟩, w, isk, bold, ital, true, hj', vj⟩ text =
        computeTextLineSize F ⟨⟨gsx, gsy⟩, w, isk, bold, ital, false, hj', vj⟩ text :=
    fun _ => rfl
  cases hj <;>
    (simp only [drawSingleLineText, if_true, if_false, if_neg Bool.false_ne_true,
      galTranslate, galSave, applyT, idTransform]
     refine (drawLoop_mirror F ⟨⟨gsx, gsy⟩, w, isk, bold, ital, false, _, vj⟩ rfl
       _ _ _ ?_ text false false _ _ _ _ ?_).1 <;>
      (first
        | ring1
        | (rw [hT]; ring1)))

/-- Witness for claim C5 at the test font, string `"AB"`. -/
theorem mirroredRoundTrip_witness :
    (testState.xform = idTransform ∧ testState.settings.textMirrored = false) ∧
    (drawSingleLineText testFont { testState with settings :=
        { testState.settings with textMirrored := true } } [65, 66]).2 =
      ((drawSingleLineText testFont testState [65, 66]).2).map reflectPrim :=
  ⟨⟨rfl, rfl⟩, mirroredRoundTrip testFont testState [65, 66] rfl rfl⟩

/-- The primitives of `drawSingleLineText` depend only on the incoming
transform and settings, not on the save/restore stack. -/
theorem drawSingleLineText_prims_congr (F : FontData) (x1 x2 : Transform)
    (set : GalSettings) (stk1 stk2 : List (Transform × GalSettings)) (cs : List Nat)
    (h : x1 = x2) :
    (drawSingleLineText F ⟨x1, set, stk1⟩ cs).2 =
      (drawSingleLineText F ⟨x2, set, stk2⟩ cs).2 := by
  subst h
  obtain ⟨gs, w, isk, bold, ital, mir, hj, vj⟩ := set
  cases hj <;> cases mir <;> rfl

/-- Claim C6: drawing `"A\nB\nC"` with vertical-center justification
draws line 2 (`"B"`) with the same vertical translation (`glyphSize.y/2`
above the anchor baseline shift) as a centered single line, while lines
1 and 3 sit exactly one line height `getInterline = KiROUND(glyphSize.y
* 1.5 + lineWidth)` above and below it; horizontally each line `k`
additionally inherits `(k-1)` leaked half-thickness translations from
the previous `drawSingleLineText` calls. -/
theorem multilineVCenter (F : FontData) (s : GalState) (pos : Vector2D)
    (hx : s.xform = idTransform) (hv : s.settings.vJustify = .center) :
    (Draw F s [65, 10, 66, 10, 67] pos 1 0).2 =
      (drawSingleLineText F ⟨translateT pos.x
          (pos.y + s.settings.glyphSize.y / 2 - ((getInterline s.settings : Int) : ℚ)),
          drawLineSettings s.settings, []⟩ [65]).2 ++
      ((drawSingleLineText F ⟨translateT
          (pos.x + (drawLineSettings s.settings).lineWidth / 2)
          (pos.y + s.settings.glyphSize.y / 2),
          drawLineSettings s.settings, []⟩ [66]).2 ++
       (drawSingleLineText F ⟨translateT
          (pos.x + (drawLineSettings s.settings).lineWidth)
          (pos.y + s.settings.glyphSize.y / 2 + ((getInterline s.settings : Int) : ℚ)),
          drawLineSettings s.settings, []⟩ [67]).2) := by
  obtain ⟨x, set, stk⟩ := s
  simp only at hx hv
  subst hx
  obtain ⟨⟨gsx, gsy⟩, w, isk, bold, ital, mir, hjv, vjv⟩ := set
  simp only at hv
  subst hv
  have hsplit : splitLines [65, 10, 66, 10, 67] = [[65], [66], [67]] := rfl
  unfold Draw
  rw [if_neg (by simp : ¬([65, 10, 66, 10, 67] : List Nat) = [])]
  simp only [hsplit, List.length_cons, List.length_nil, Nat.cast_ofNat, galSave,
    galTranslate, galRotate, applyT, idTransform, mul_one, one_mul, mul_zero, zero_mul,
    add_zero, zero_add, neg_zero, neg_neg, mul_neg, neg_mul,
    show ((3 : Int) > 1) = True by simp, if_true]
  simp only [show (((1 + 1 + 1 : Nat)) : Int) = 3 from by norm_num,
    show ((3 : Int) > 1) = True from by simp, if_true]
  have hdiv : ∀ k : Int, -(((3 : Int) - 1) * k) / 2 = -k := by
    intro k
    omega
  simp only [hdiv, Int.cast_neg]
  cases bold
  · simp only [Bool.false_eq_true, if_false, drawLineSettings, drawLines,
      drawSingleLineText_state, galTranslate, applyT, mul_one, one_mul, mul_zero,
      zero_mul, add_zero, zero_add]
    refine congrArg₂ (· ++ ·) ?_ (congrArg₂ (· ++ ·) ?_ ?_) <;>
      (apply drawSingleLineText_prims_congr
       ext <;> simp only [translateT] <;> ring)
  · simp only [if_true, drawLineSettings, drawLines,
      drawSingleLineText_state, galTranslate, applyT, mul_one, one_mul, mul_zero,
      zero_mul, add_zero, zero_add]
    refine congrArg₂ (· ++ ·) ?_ (congrArg₂ (· ++ ·) ?_ ?_) <;>
      (apply drawSingleLineText_prims_congr
       ext <;> simp only [translateT] <;> ring)

/-- Witness for claim C6 at the test font, vertical-center settings,
anchor `(0, 0)`. -/
theorem multilineVCenter_witness :
    ((⟨idTransform, ⟨⟨10, 10⟩, 1, true, false, false, false, .left, .center⟩, []⟩ :
        GalState).xform = idTransform ∧
      (⟨idTransform, ⟨⟨10, 10⟩, 1, true, false, false, false, .left, .center⟩, []⟩ :
        GalState).settings.vJustify = .center) ∧
    (Draw testFont ⟨idTransform, ⟨⟨10, 10⟩, 1, true, false, false, false, .left, .center⟩, []⟩
        [65, 10, 66, 10, 67] ⟨0, 0⟩ 1 0).2 =
      (drawSingleLineText testFont ⟨translateT (0 : ℚ)
          ((0 : ℚ) + (10 : ℚ) / 2 - ((getInterline
            ⟨⟨10, 10⟩, 1, true, false, false, false, .left, .center⟩ : Int) : ℚ)),
          drawLineSettings ⟨⟨10, 10⟩, 1, true, false, false, false, .left, .center⟩, []⟩
          [65]).2 ++
      ((drawSingleLineText testFont ⟨translateT
          ((0 : ℚ) + (drawLineSettings
            ⟨⟨10, 10⟩, 1, true, false, false, false, .left, .center⟩).lineWidth / 2)
          ((0 : ℚ) + (10 : ℚ) / 2),
          drawLineSettings ⟨⟨10, 10⟩, 1, true, false, false, false, .left, .center⟩, []⟩
          [66]).2 ++
       (drawSingleLineText testFont ⟨translateT
          ((0 : ℚ) + (drawLineSettings
            ⟨⟨10, 10⟩, 1, true, false, false, false, .left, .center⟩).lineWidth)
          ((0 : ℚ) + (10 : ℚ) / 2 + ((getInterline
            ⟨⟨10, 10⟩, 1, true, false, false, false, .left, .center⟩ : Int) : ℚ)),
          drawLineSettings ⟨⟨10, 10⟩, 1, true, false, false, false, .left, .center⟩, []⟩
          [67]).2) :=
  ⟨⟨rfl, rfl⟩, multilineVCenter testFont
    ⟨idTransform, ⟨⟨10, 10⟩, 1, true, false, false, false, .left, .center⟩, []⟩
    ⟨0, 0⟩ rfl rfl⟩

/-- Claim C7, amended: drawing `"~A~"` at glyph size `(10, 10)`,
position `(0, 0)`, rotation 0 (plain style, left/bottom justification)
produces exactly one overbar `DrawLine` plus the strokes of the glyph of
`A` (scaled by 10 and shifted by the half line width); the overbar sits
at height `10 * 1.22 + lineWidth` above the baseline and runs from
`xOffset + (10 * 1.22 + lineWidth) * ITALIC_TILT` (the unconditional
italic-compensation indent at the start of an overbar run) to
`xOffset +` the glyph's advance width — NOT from `xOffset` itself. -/
theorem overbarScenario_amended (F : FontData) (w : ℚ) (isk : Bool)
    (stk : List (Transform × GalSettings)) (hA : 33 < F.glyphBoundingBoxes.length) :
    (Draw F ⟨idTransform, ⟨⟨10, 10⟩, w, isk, false, false, false, .left, .bottom⟩, stk⟩
        [126, 65, 126] ⟨0, 0⟩ 1 0).2 =
      Prim.line
        ⟨w / 2 + (10 * OVERBAR_POSITION_FACTOR + w) * ITALIC_TILT,
         -(10 * OVERBAR_POSITION_FACTOR + w)⟩
        ⟨w / 2 + 10 * (F.glyphBoundingBoxes.getD 33 defaultBox).theEnd.x,
         -(10 * OVERBAR_POSITION_FACTOR + w)⟩ ::
      (F.glyphs.getD 33 []).map (fun stroke => Prim.polyline (stroke.map (fun p =>
        (⟨p.x * 10 + w / 2, p.y * 10⟩ : Vector2D)))) := by
  have hidx : glyphIndexOf F.glyphBoundingBoxes.length 65 = 33 := by
    unfold glyphIndexOf
    rw [if_neg (by push_neg; omega)]
    decide
  have hsplit : splitLines [126, 65, 126] = [[126, 65, 126]] := rfl
  unfold Draw
  rw [if_neg (by simp : ¬([126, 65, 126] : List Nat) = [])]
  simp only [hsplit, List.length_cons, List.length_nil, galSave, galTranslate, galRotate,
    applyT, idTransform, mul_one, one_mul, mul_zero, zero_mul, add_zero, zero_add,
    neg_zero, neg_neg, mul_neg, neg_mul,
    show ¬((((1 : Nat) : Int)) > 1) from by norm_num, if_false, if_neg, drawLines]
  simp only [if_neg Bool.false_ne_true, drawSingleLineText, galTranslate, galSave,
    applyT, mul_one, one_mul, mul_zero, zero_mul, add_zero, zero_add]
  rw [drawLoop_tilde]
  simp only [show ((65 : Nat) ≠ 126) = True from by simp, if_true, hidx,
    drawLoop_tilde_nil, Bool.not_false, glyphStep, computeOverbarVerticalPosition,
    ComputeOverbarVerticalPosition, if_neg Bool.false_ne_true, List.append_nil,
    List.singleton_append, mul_one, one_mul, mul_zero, zero_mul, add_zero, zero_add]
  congr 1
  · congr 1 <;> (ext <;> simp only [applyT] <;> ring)
  · apply List.map_congr_left
    intro stroke _
    congr 1
    apply List.map_congr_left
    intro p _
    ext <;> simp only [applyT] <;> ring

/-- Witness for the amended claim C7 at the test font with line width 1. -/
theorem overbarScenario_witness :
    33 < testFont.glyphBoundingBoxes.length ∧
    (Draw testFont ⟨idTransform, ⟨⟨10, 10⟩, 1, true, false, false, false, .left, .bottom⟩,
        []⟩ [126, 65, 126] ⟨0, 0⟩ 1 0).2 =
      Prim.line
        ⟨1 / 2 + (10 * OVERBAR_POSITION_FACTOR + 1) * ITALIC_TILT,
         -(10 * OVERBAR_POSITION_FACTOR + 1)⟩
        ⟨1 / 2 + 10 * (testFont.glyphBoundingBoxes.getD 33 defaultBox).theEnd.x,
         -(10 * OVERBAR_POSITION_FACTOR + 1)⟩ ::
      (testFont.glyphs.getD 33 []).map (fun stroke => Prim.polyline (stroke.map (fun p =>
        (⟨p.x * 10 + 1 / 2, p.y * 10⟩ : Vector2D)))) :=
  ⟨by with_unfolding_all decide,
   overbarScenario_amended testFont 1 true [] (by with_unfolding_all decide)⟩

/-- The decoding loop of `LoadNewStrokeFont`, past the first pair
(`2 ≤ i`), builds exactly the strokes described by the claim wording
(`specStrokes`) and leaves the advance-width bounds untouched. -/
theorem decodeLoop_spec (ps : List (Nat × Nat)) :
    ∀ (st : DecodeSt) (i : Nat), 2 ≤ i →
      ((if (decodeLoop i st (flatPairs ps)).pointList ≠ [] then
          (decodeLoop i st (flatPairs ps)).glyph ++
            [(decodeLoop i st (flatPairs ps)).pointList]
        else (decodeLoop i st (flatPairs ps)).glyph)
          = specStrokes st.glyphStartX st.pointList st.glyph ps) ∧
      (decodeLoop i st (flatPairs ps)).glyphStartX = st.glyphStartX ∧
      (decodeLoop i st (flatPairs ps)).glyphEndX = st.glyphEndX ∧
      (decodeLoop i st (flatPairs ps)).glyphBoundingX = st.glyphBoundingX := by
  induction ps with
  | nil =>
    intro st i hi
    simp [flatPairs, decodeLoop, specStrokes]
  | cons q ps ih =>
    obtain ⟨a, b⟩ := q
    intro st i hi
    have hflat : flatPairs ((a, b) :: ps) = a :: b :: flatPairs ps := by
      simp [flatPairs]
    rw [hflat]
    simp only [decodeLoop]
    unfold decodeStep
    rw [if_neg (show ¬ i < 2 by omega)]
    by_cases hab : a = 32 ∧ b = 82
    · rw [if_pos hab]
      have h2 := ih { st with
          glyph := if st.pointList ≠ [] then st.glyph ++ [st.pointList] else st.glyph,
          pointList := [] } (i + 2) (by omega)
      simp only at h2
      rw [specStrokes.eq_def]
      simp only [if_pos hab]
      exact h2
    · rw [if_neg hab]
      have hpt : (⟨((a : ℚ) - 82) * STROKE_FONT_SCALE - st.glyphStartX,
          ((b : ℚ) - 82 + FONT_OFFSET) * STROKE_FONT_SCALE⟩ : Vector2D) =
          ⟨((a : ℚ) - 82) * (1 / 21) - st.glyphStartX, ((b : ℚ) - 82 - 10) * (1 / 21)⟩ := by
        ext <;> simp only [STROKE_FONT_SCALE, FONT_OFFSET] <;> ring
      rw [hpt]
      have h2 := ih { st with
          pointList := st.pointList ++
            [⟨((a : ℚ) - 82) * (1 / 21) - st.glyphStartX,
              ((b : ℚ) - 82 - 10) * (1 / 21)⟩] } (i + 2) (by omega)
      simp only at h2
      rw [specStrokes.eq_def]
      simp only [if_neg hab]
      exact h2

/-- Claim C3: for every glyph entry made of a first pair `c0 c1` and a
sequence of subsequent two-character pairs, `LoadNewStrokeFont` decodes
the advance-width bounds as `(c0 - R) * (1/21)` and `(c1 - R) * (1/21)`,
treats every later `" R"` pair as a stroke break, decodes every other
pair `(a, b)` as the point `((a - R) * (1/21) - glyphStartX,
(b - R - 10) * (1/21))`, and records the bounding x pair
`(0, glyphEndX - glyphStartX)` — i.e. the source decoding agrees with
the claim-side decoder `specDecodeGlyph`. -/
theorem glyphDecode (c0 c1 : Nat) (ps : List (Nat × Nat)) :
    (loadGlyph (c0 :: c1 :: flatPairs ps)).1 = (specDecodeGlyph c0 c1 ps).1 ∧
    (decodeLoop 0 initDecodeSt (c0 :: c1 :: flatPairs ps)).glyphStartX =
      (specDecodeGlyph c0 c1 ps).2.1 ∧
    (decodeLoop 0 initDecodeSt (c0 :: c1 :: flatPairs ps)).glyphEndX =
      (specDecodeGlyph c0 c1 ps).2.2 ∧
    (loadGlyph (c0 :: c1 :: flatPairs ps)).2 =
      ⟨0, (specDecodeGlyph c0 c1 ps).2.2 - (specDecodeGlyph c0 c1 ps).2.1⟩ := by
  obtain ⟨h1, h2, h3, h4⟩ := decodeLoop_spec ps
    ⟨[], [], ((c0 : ℚ) - 82) * STROKE_FONT_SCALE, ((c1 : ℚ) - 82) * STROKE_FONT_SCALE,
      ⟨0, ((c1 : ℚ) - 82) * STROKE_FONT_SCALE - ((c0 : ℚ) - 82) * STROKE_FONT_SCALE⟩⟩ 2
    (le_refl 2)
  have hloop : decodeLoop 0 initDecodeSt (c0 :: c1 :: flatPairs ps) =
      decodeLoop 2 ⟨[], [], ((c0 : ℚ) - 82) * STROKE_FONT_SCALE,
        ((c1 : ℚ) - 82) * STROKE_FONT_SCALE,
        ⟨0, ((c1 : ℚ) - 82) * STROKE_FONT_SCALE - ((c0 : ℚ) - 82) * STROKE_FONT_SCALE⟩⟩
        (flatPairs ps) := by
    simp [decodeLoop, decodeStep, initDecodeSt]
  simp only at h1 h2 h3 h4
  simp only [STROKE_FONT_SCALE] at h1 h2 h3 h4
  simp only [loadGlyph, specDecodeGlyph, hloop, STROKE_FONT_SCALE]
  exact ⟨h1, h2, h3, by rw [h4]⟩

end KIGFX
